import Mathlib

/-!
Shallow embedding of the session lifecycle orchestrator in
`disk_mount_stable.py`: the global `active_streams` registry protected by
`streams_lock`, the admission handler `handle_stream_post`, the restart
handler `handle_restart_stream`, the stop routine `stop_stream_process`,
the reaper sweep in `reaper_task`, and the small read-only handlers.

The Python registry is a dict from session id to a dict of fields; it is
modelled as an insertion-ordered association list with unique keys (a
Python dict can never hold two entries for one key, so theorems that need
key uniqueness take it as a `NodupKeys` hypothesis).  The filesystem state
that the code touches (one artifact directory per session under
`STREAMS_BASE_DIR`) is modelled as an association list from session id to
directory contents; the OS process table is an association list from pid
to a liveness bit (`true` = `poll()` returns `None`).  Launch tasks created
with `asyncio.create_task(process_stream_task(...))` are recorded in a
`pending` list and run as separate transitions, since the handler returns
its response before the task body executes.
-/

/-- Configuration constant `MAX_CONCURRENT_STREAMS` (line 34 of the source). -/
def MAX_CONCURRENT_STREAMS : Nat := 4

/-- Configuration constant `SESSION_TIMEOUT_SECONDS` (line 27 of the source). -/
def SESSION_TIMEOUT_SECONDS : Nat := 45

/-- The `stream_context` dict stored in each registry record:
`magnet_url`, `video_index`, `subtitle_index` (the latter may be absent). -/
structure StreamContext where
  magnet_url : String
  video_index : String
  subtitle_index : Option String
deriving Repr, DecidableEq

/-- One value of the `active_streams` dict.  `process` holds the pid of the
spawned pipeline (`none` until `process_stream_task` has run `Popen`);
`progress_data` is the `bytesCompleted` field of the last polled progress
snapshot (`none` models the empty dict `{}`); `progress_task` is the poller
task handle. -/
structure SessionData where
  process : Option Nat
  last_seen : Nat
  process_running : Bool
  progress_data : Option Nat
  progress_task : Option Unit
  status_message : String
  stream_context : StreamContext
deriving Repr, DecidableEq

/-- On-disk artifact directory of one session: the lines of
`playlist.m3u8` when that file exists, the other file names in the
directory, and whether `subtitle.vtt` exists. -/
structure SessionDir where
  playlist : Option (List String)
  files : List String
  subtitle : Bool
deriving Repr, DecidableEq

/-- Arguments with which a `process_stream_task` coroutine was created. -/
structure LaunchArgs where
  session_id : String
  magnet_url : String
  video_index : String
  subtitle_index : Option String
  start_byte : Nat
  start_segment : Nat
deriving Repr, DecidableEq

/-- Whole observable state: the `active_streams` registry, the artifact
directories, the OS process table (pid to alive bit), and the launch
tasks that have been created but have not run yet. -/
structure World where
  active_streams : List (String × SessionData)
  dirs : List (String × SessionDir)
  procs : List (Nat × Bool)
  pending : List LaunchArgs
deriving Repr, DecidableEq

/-- Dict lookup: first value stored under the key. -/
def alistGet {κ β : Type} [DecidableEq κ] : List (κ × β) → κ → Option β
  | [], _ => none
  | (k2, v) :: t, k => if k2 = k then some v else alistGet t k

/-- Dict assignment: replace the value in place, or append a new entry. -/
def alistSet {κ β : Type} [DecidableEq κ] : List (κ × β) → κ → β → List (κ × β)
  | [], k, v => [(k, v)]
  | (k2, v2) :: t, k, v => if k2 = k then (k, v) :: t else (k2, v2) :: alistSet t k v

/-- Dict `pop` / `del`: drop the first entry stored under the key. -/
def alistRemove {κ β : Type} [DecidableEq κ] : List (κ × β) → κ → List (κ × β)
  | [], _ => []
  | (k2, v2) :: t, k => if k2 = k then t else (k2, v2) :: alistRemove t k

/-- Keys are pairwise distinct, as they always are in a Python dict. -/
def NodupKeys {κ β : Type} (l : List (κ × β)) : Prop := (l.map Prod.fst).Nodup

/-- Remove one occurrence of an element (used to consume a pending task). -/
def removeOne {α : Type} [DecidableEq α] : List α → α → List α
  | [], _ => []
  | x :: xs, a => if x = a then xs else x :: removeOne xs a

/-- Does the second list start with the first? -/
def leadEq {α : Type} [DecidableEq α] : List α → List α → Bool
  | [], _ => true
  | _ :: _, [] => false
  | a :: as, b :: bs => a = b && leadEq as bs

/-- Is `sub` a contiguous sublist of the second list? -/
def listHasSub {α : Type} [DecidableEq α] (sub : List α) : List α → Bool
  | [] => decide (sub = [])
  | x :: t => leadEq sub (x :: t) || listHasSub sub t

/-- Python `sub in s` on strings. -/
def strContains (sub s : String) : Bool := listHasSub sub.data s.data

/-- Python `s.startswith(pre)`. -/
def strStartsWith (pre s : String) : Bool := leadEq pre.data s.data

/-- Python `s.endswith(suf)`. -/
def strEndsWith (suf s : String) : Bool := leadEq suf.data.reverse s.data.reverse

/-- Python `s.strip()`: drop leading and trailing whitespace. -/
def pyStrip (s : String) : String :=
  String.mk (((s.data.dropWhile Char.isWhitespace).reverse.dropWhile Char.isWhitespace).reverse)

/-- Python `s.lower()`. -/
def pyLower (s : String) : String := String.mk (s.data.map Char.toLower)

/-- `validate_session_id` (source line 471): the id passes validation
unless it is empty, contains a slash, or contains the substring `..`;
a failing id makes the handler raise `HTTPBadRequest` before anything
else runs. -/
def validate_session_id (session_id : String) : Bool :=
  !(session_id.data.isEmpty || session_id.data.any (· = '/') || strContains ".." session_id)

/-- Number of registry records whose `process_running` flag is true
(the quantity `running_streams_count` of source line 524). -/
def runningCount (w : World) : Nat :=
  w.active_streams.countP (fun p => p.2.process_running)

/-- `p.poll() is None` for the pid: the process is still alive. -/
def procAlive (w : World) (pid : Nat) : Bool := alistGet w.procs pid == some true

/-- `stop_stream_process(session_id, cleanup_files)` (source lines 333-353):
pop the record under the lock; if it was absent, only `rmtree` the session
directory when `cleanup_files` is set; otherwise kill the process if one is
recorded and still alive, cancel the poller task, and `rmtree` the session
directory when `cleanup_files` is set.  It never raises. -/
def stop_stream_process (w : World) (session_id : String) (cleanup_files : Bool) : World :=
  match alistGet w.active_streams session_id with
  | none =>
      if cleanup_files then { w with dirs := alistRemove w.dirs session_id } else w
  | some session_data =>
      let w1 : World := { w with active_streams := alistRemove w.active_streams session_id }
      let w2 : World :=
        match session_data.process with
        | some pid =>
            if procAlive w1 pid then { w1 with procs := alistSet w1.procs pid false } else w1
        | none => w1
      if cleanup_files then { w2 with dirs := alistRemove w2.dirs session_id } else w2

/-- HTTP responses the modelled handlers can produce.  `ok` is the body
`{"status": "ok"}`, `stopped` and `restarting` the corresponding bodies,
`internalError` is the 500 answer produced by `error_middleware` when a
handler raises an unexpected exception, `sessionNotFound` is the
`{"status": "session_not_found"}` 404 answer that appears in the text of
`handle_heartbeat`, and `deadlock` marks a request on which the handler
never answers because its thread blocks forever re-acquiring the
non-reentrant `streams_lock` it already holds. -/
inductive Response where
  | ok
  | badRequest
  | busy
  | stopped
  | restarting
  | noContext
  | internalError
  | sessionNotFound
  | statusMsg (message : String)
  | progressData (bytesCompleted : Option Nat)
  | isActiveData (active : Bool) (context : Option StreamContext) (is_magnet : Bool)
  | subtitleFile
  | subtitleMissing
  | deadlock
deriving Repr, DecidableEq

/-- HTTP status code of each response; `none` when no response is ever
produced (the deadlocked request). -/
def Response.httpStatus : Response → Option Nat
  | .ok => some 200
  | .badRequest => some 400
  | .busy => some 503
  | .stopped => some 200
  | .restarting => some 200
  | .noContext => some 404
  | .internalError => some 500
  | .sessionNotFound => some 404
  | .statusMsg _ => some 200
  | .progressData _ => some 200
  | .isActiveData _ _ _ => some 200
  | .subtitleFile => some 200
  | .subtitleMissing => some 404
  | .deadlock => none

/-- The `update_status` closure of `process_stream_task` (source lines
356-358): overwrite `status_message` when the session still exists. -/
def update_status (w : World) (session_id message : String) : World :=
  match alistGet w.active_streams session_id with
  | some sd =>
      { w with active_streams :=
          alistSet w.active_streams session_id { sd with status_message := message } }
  | none => w

/-- Source lines 534-535 (and 577-578): store the freshly created poller
task handle in the record when the session still exists. -/
def setProgressTask (w : World) (session_id : String) : World :=
  match alistGet w.active_streams session_id with
  | some sd =>
      { w with active_streams :=
          alistSet w.active_streams session_id { sd with progress_task := some () } }
  | none => w

/-- `os.makedirs(session_dir, exist_ok=True)`: create the artifact
directory when absent. -/
def ensureDir (w : World) (session_id : String) : World :=
  match alistGet w.dirs session_id with
  | some _ => w
  | none => { w with dirs := alistSet w.dirs session_id ⟨none, [], false⟩ }

/-- The orphan scan of `handle_stream_post` (source lines 516-520): the
first session, in dict order, whose `stream_context.magnet_url` equals the
requested url and whose id differs from the requesting id. -/
def findOrphan : List (String × SessionData) → String → String → Option String
  | [], _, _ => none
  | (sid, sdata) :: t, video_url, session_id =>
      if sdata.stream_context.magnet_url = video_url ∧ sid ≠ session_id then some sid
      else findOrphan t video_url session_id

/-- First phase of `handle_stream_post` (source lines 514-522): stop an
orphaned session holding the same content with cleanup, if there is one. -/
def admitPhase1 (w : World) (session_id video_url : String) : World :=
  match findOrphan w.active_streams video_url session_id with
  | some orphaned_sid => stop_stream_process w orphaned_sid true
  | none => w

/-- `handle_stream_post` (source lines 509-536).  After validation and the
orphan cleanup it counts running records and, in the same lock acquisition,
either rejects with 503 or inserts the new optimistic record
(`process = None`, `process_running = True`, timestamps now); it then
creates the launch task (recorded in `pending`; the task body runs later)
and stores the poller handle before answering `ok`. -/
def handle_stream_post (w : World) (session_id url video_index : String)
    (subtitle_index : Option String) (now : Nat) : Response × World :=
  if ¬ validate_session_id session_id then (.badRequest, w)
  else
    let video_url := pyStrip url
    if video_url = "" ∨ video_index = "" then (.badRequest, w)
    else
      let w1 := admitPhase1 w session_id video_url
      if MAX_CONCURRENT_STREAMS ≤ runningCount w1 then (.busy, w1)
      else
        let newRecord : SessionData :=
          { process := none, last_seen := now, process_running := true,
            progress_data := none, progress_task := none,
            status_message := "Initializing...",
            stream_context :=
              { magnet_url := video_url, video_index := video_index,
                subtitle_index := subtitle_index } }
        let w2 : World :=
          { w1 with active_streams := alistSet w1.active_streams session_id newRecord }
        let w3 : World :=
          { w2 with pending :=
              w2.pending ++ [⟨session_id, video_url, video_index, subtitle_index, 0, 0⟩] }
        (.ok, setProgressTask w3 session_id)

/-- Outcome of the ffprobe analysis step in `process_stream_task`
(source lines 367-395), which only selects the command line and the
status text. -/
inductive ProbeOutcome where
  | compatible
  | incompatible
  | timeout
deriving Repr, DecidableEq

/-- Status text chosen by the probe branch of `process_stream_task`. -/
def probeStatusMessage : ProbeOutcome → String
  | .compatible => "Compatible codecs found! Using low-CPU remuxing..."
  | .incompatible => "Incompatible codecs found. Transcoding will be required..."
  | .timeout => "Media analysis timed out. Defaulting to high-compatibility transcoding..."

/-- Result of the `subprocess.Popen` spawn in `process_stream_task`:
either a fresh pid, or any exception raised inside the `try` block. -/
inductive LaunchResult where
  | success (pid : Nat)
  | failure (message : String)
deriving Repr, DecidableEq

/-- `process_stream_task` (source lines 355-415), the launch task created
by `handle_stream_post` and `handle_restart_stream`.  On success it
creates the session directory, spawns the pipeline and, when the session
still exists, stores the handle and forces `process_running` back to true.
Any exception is caught and answered with
`stop_stream_process(session_id, cleanup_files=True)`. -/
def process_stream_task (w : World) (a : LaunchArgs)
    (probe : ProbeOutcome) (result : LaunchResult) : World :=
  match result with
  | .failure message =>
      let w1 := update_status w a.session_id "Analyzing media file with ffprobe..."
      let w2 := update_status w1 a.session_id ("Error: " ++ message)
      stop_stream_process w2 a.session_id true
  | .success pid =>
      let w1 := update_status w a.session_id "Analyzing media file with ffprobe..."
      let w2 :=
        if a.start_segment = 0 then update_status w1 a.session_id (probeStatusMessage probe)
        else update_status w1 a.session_id "Resuming stream with existing settings..."
      let w3 := update_status w2 a.session_id "Starting stream process..."
      let w4 := ensureDir w3 a.session_id
      let w5 : World := { w4 with procs := alistSet w4.procs pid true }
      match alistGet w5.active_streams a.session_id with
      | some sd =>
          let sd2 : SessionData := { sd with process := some pid, process_running := true }
          { w5 with active_streams := alistSet w5.active_streams a.session_id sd2 }
      | none => w5

/-- Model of Python `re.search(r'(\\d+)', f)` as it appears on source line
562.  Inside the raw string the pattern is the six characters `(\\d+)`,
i.e. the regex "an escaped literal backslash followed by one or more
literal letters d": the captured group of the first such match is
returned, `none` when there is no match (Python `None`). -/
def reSearchGroup : List Char → Option (List Char)
  | [] => none
  | c :: rest =>
      if c = '\\' then
        if (rest.takeWhile (· = 'd')).isEmpty then reSearchGroup rest
        else some ('\\' :: rest.takeWhile (· = 'd'))
      else reSearchGroup rest

/-- Python `int(s)` on the captured group: succeeds only on (optionally
space-padded, optionally signed) digit strings; we only need the
non-negative digits-only case, anything else raises `ValueError`. -/
def pyIntOfChars (cs : List Char) : Option Nat :=
  if cs ≠ [] ∧ cs.all Char.isDigit then
    some (cs.foldl (fun n c => 10 * n + (c.toNat - 48)) 0)
  else none

/-- `int(re.search(r'(\\d+)', f).group(1))` for one segment file name:
`none` models the exception (an `AttributeError` when the search finds no
match, a `ValueError` when `int` rejects the captured text). -/
def segIndexOfFile (f : String) : Option Nat :=
  (reSearchGroup f.data).bind pyIntOfChars

/-- The filesystem phase of `handle_restart_stream` (source lines
549-563): splice every `#EXT-X-ENDLIST` line out of the playlist, then
compute the next segment number from the names of the existing
`segment*.ts` files; `Except.error` models the uncaught exception raised
while evaluating the list comprehension. -/
def restartScanDir (w : World) (session_id : String) : World × Except Unit Nat :=
  match alistGet w.dirs session_id with
  | none => (w, .ok 0)
  | some dir =>
      let dir1 : SessionDir :=
        match dir.playlist with
        | some lines => { dir with playlist := some (lines.filter (fun l => ¬ strContains "#EXT-X-ENDLIST" l)) }
        | none => dir
      let w1 : World := { w with dirs := alistSet w.dirs session_id dir1 }
      let segment_files := dir1.files.filter (fun f => strStartsWith "segment" f && strEndsWith ".ts" f)
      if segment_files.isEmpty then (w1, .ok 0)
      else
        match segment_files.mapM segIndexOfFile with
        | none => (w1, .error ())
        | some idxs => (w1, .ok (idxs.foldl max 0 + 1))

/-- `handle_restart_stream` (source lines 547-579).  After validation it
rewrites the playlist and computes the next segment number (a raised
exception there is turned into a 500 by `error_middleware`) and then, when
no record with a stored context exists, answers 404 from inside the lock
block.  When a record does exist, the handler never gets further: line 564
acquired `streams_lock` — a non-reentrant `threading.Lock` (line 22) — and
line 570, still inside that block, calls `stop_stream_process`, which
re-acquires the same lock at line 335.  The event loop thread therefore
blocks forever: no response is produced, the registry is never mutated
(both the pop inside `stop_stream_process` and the re-insert of line 571
sit behind the blocked acquisition), and no launch task is created.  The
`deadlock` result records that hang; the state it carries is the one at
the moment of blocking (playlist already spliced, registry untouched).
The `now` argument is the would-be timestamp; no path of this handler
uses it. -/
def handle_restart_stream (w : World) (session_id : String) (now : Nat) : Response × World :=
  if ¬ validate_session_id session_id then (.badRequest, w)
  else
    match restartScanDir w session_id with
    | (w1, .error _) => (.internalError, w1)
    | (w1, .ok _) =>
        match alistGet w1.active_streams session_id with
        | none => (.noContext, w1)
        | some _ => (.deadlock, w1)

/-- `handle_stop_stream` (source lines 541-546): the query parameter
`hard` selects `cleanup_files`. -/
def handle_stop_stream (w : World) (session_id : String) (hard : Option String) :
    Response × World :=
  if ¬ validate_session_id session_id then (.badRequest, w)
  else
    let hard_reset := pyLower (hard.getD "false") = "true"
    (.stopped, stop_stream_process w session_id hard_reset)

/-- `handle_heartbeat` (source lines 598-603): refresh `last_seen` when the
session exists; the `ok` response is returned inside the lock block in
either case, so the trailing `session_not_found` answer is dead text. -/
def handle_heartbeat (w : World) (session_id : String) (now : Nat) : Response × World :=
  if ¬ validate_session_id session_id then (.badRequest, w)
  else
    match alistGet w.active_streams session_id with
    | some sd =>
        let sd2 : SessionData := { sd with last_seen := now }
        (.ok, { w with active_streams := alistSet w.active_streams session_id sd2 })
    | none => (.ok, w)

/-- `handle_stream_status` (source lines 537-540). -/
def handle_stream_status (w : World) (session_id : String) : Response × World :=
  if ¬ validate_session_id session_id then (.badRequest, w)
  else
    let message := ((alistGet w.active_streams session_id).map (·.status_message)).getD ""
    (.statusMsg message, w)

/-- `handle_progress` (source lines 604-607). -/
def handle_progress (w : World) (session_id : String) : Response × World :=
  if ¬ validate_session_id session_id then (.badRequest, w)
  else (.progressData ((alistGet w.active_streams session_id).bind (·.progress_data)), w)

/-- `handle_is_active` (source lines 580-597): a session counts as active
when its flag is set and either the recorded process is still alive or no
process object exists yet. -/
def handle_is_active (w : World) (session_id : String) : Response × World :=
  if ¬ validate_session_id session_id then (.badRequest, w)
  else
    match alistGet w.active_streams session_id with
    | none => (.isActiveData false none false, w)
    | some sd =>
        let active :=
          sd.process_running &&
            (match sd.process with
             | some pid => procAlive w pid
             | none => true)
        let is_magnet := strStartsWith "magnet:?" sd.stream_context.magnet_url
        (.isActiveData active (some sd.stream_context) is_magnet, w)

/-- `handle_subtitle_vtt` (source lines 608-613). -/
def handle_subtitle_vtt (w : World) (session_id : String) : Response × World :=
  if ¬ validate_session_id session_id then (.badRequest, w)
  else
    match alistGet w.dirs session_id with
    | some dir => if dir.subtitle then (.subtitleFile, w) else (.subtitleMissing, w)
    | none => (.subtitleMissing, w)

/-- The per-record body of the reaper loop (source lines 453-458): when a
process object is recorded, its process has exited, and the flag is still
set, flip `process_running` to false and refresh `last_seen`; each loop
iteration reads and writes only its own record, and the process table is
not touched during the sweep, so the loop over `list(active_streams.items())`
acts pointwise. -/
def reaperStepRecord (procs : List (Nat × Bool)) (now : Nat) (data : SessionData) :
    SessionData :=
  match data.process with
  | some pid =>
      if ¬ (alistGet procs pid == some true) ∧ data.process_running then
        { data with process_running := false, last_seen := now }
      else data
  | none => data

/-- The locked phase of one reaper sweep (source lines 450-460): reconcile
every record, then collect `sessions_to_kill`, the sessions whose flag is
still set (after reconciliation) and whose `last_seen` is older than the
session timeout. -/
def reaperScan (w : World) (now : Nat) : World × List String :=
  let reconciled := w.active_streams.map (fun p => (p.1, reaperStepRecord w.procs now p.2))
  let sessions_to_kill :=
    (reconciled.filter
      (fun p => p.2.process_running ∧ now - p.2.last_seen > SESSION_TIMEOUT_SECONDS)).map
      Prod.fst
  ({ w with active_streams := reconciled }, sessions_to_kill)

/-- One full iteration of `reaper_task` (source lines 446-464): the locked
scan, then `stop_stream_process(sid, cleanup_files=True)` for every
collected session. -/
def reaper_sweep (w : World) (now : Nat) : World :=
  match reaperScan w now with
  | (w1, sessions_to_kill) =>
      sessions_to_kill.foldl (fun wa sid => stop_stream_process wa sid true) w1

/-- Consume one pending launch task and run its body. -/
def run_pending_launch (w : World) (a : LaunchArgs)
    (probe : ProbeOutcome) (result : LaunchResult) : World :=
  process_stream_task { w with pending := removeOne w.pending a } a probe result

/-- State at orchestrator startup: empty registry, no artifact
directories, no processes, no pending launch tasks. -/
def initWorld : World := { active_streams := [], dirs := [], procs := [], pending := [] }

/-- One transition of the orchestrator: an HTTP operation reaching a
handler, a reaper sweep, a previously created launch task running to
completion (with a fresh pid when the spawn succeeds), or a pipeline
process exiting on its own.  A restart that deadlocks produces no
transition at all: the blocked thread holds `streams_lock` forever and the
server serves nothing afterwards, so only non-deadlocking restarts step. -/
inductive Step : World → World → Prop where
  | post (w : World) (session_id url video_index : String)
      (subtitle_index : Option String) (now : Nat) :
      Step w (handle_stream_post w session_id url video_index subtitle_index now).2
  | restart (w : World) (session_id : String) (now : Nat)
      (hlive : (handle_restart_stream w session_id now).1 ≠ Response.deadlock) :
      Step w (handle_restart_stream w session_id now).2
  | stop (w : World) (session_id : String) (hard : Option String) :
      Step w (handle_stop_stream w session_id hard).2
  | heartbeat (w : World) (session_id : String) (now : Nat) :
      Step w (handle_heartbeat w session_id now).2
  | reaper (w : World) (now : Nat) :
      Step w (reaper_sweep w now)
  | launch (w : World) (a : LaunchArgs) (probe : ProbeOutcome) (result : LaunchResult)
      (hmem : a ∈ w.pending)
      (hfresh : ∀ pid, result = .success pid → alistGet w.procs pid = none) :
      Step w (run_pending_launch w a probe result)
  | procExit (w : World) (pid : Nat) (halive : alistGet w.procs pid = some true) :
      Step w { w with procs := alistSet w.procs pid false }

/-- States reachable from startup by a sequence of operations. -/
inductive Reachable : World → Prop where
  | init : Reachable initWorld
  | step {w w2 : World} : Reachable w → Step w w2 → Reachable w2

section AlistLemmas

variable {κ β : Type} [DecidableEq κ]

theorem alistGet_set_self (l : List (κ × β)) (k : κ) (v : β) :
    alistGet (alistSet l k v) k = some v := by
  induction l with
  | nil => simp [alistSet, alistGet]
  | cons p t ih =>
      obtain ⟨k2, v2⟩ := p
      by_cases h : k2 = k
      · simp [alistSet, h, alistGet]
      · simp [alistSet, h, alistGet, ih]

theorem alistGet_set_ne (l : List (κ × β)) (k kq : κ) (v : β) (h : kq ≠ k) :
    alistGet (alistSet l k v) kq = alistGet l kq := by
  induction l with
  | nil => simp [alistSet, alistGet, Ne.symm h]
  | cons p t ih =>
      obtain ⟨k2, v2⟩ := p
      by_cases h2 : k2 = k
      · subst h2
        simp [alistSet, alistGet, Ne.symm h]
      · by_cases h3 : k2 = kq
        · simp [alistSet, h2, alistGet, h3, h]
        · simp [alistSet, h2, alistGet, h3, ih]

theorem alistSet_set_self (l : List (κ × β)) (k : κ) (a b : β) :
    alistSet (alistSet l k a) k b = alistSet l k b := by
  induction l with
  | nil => simp [alistSet]
  | cons p t ih =>
      obtain ⟨k2, v2⟩ := p
      by_cases h : k2 = k
      · simp [alistSet, h]
      · simp [alistSet, h, ih]

theorem alistGet_remove_ne (l : List (κ × β)) (k kq : κ) (h : kq ≠ k) :
    alistGet (alistRemove l k) kq = alistGet l kq := by
  induction l with
  | nil => simp [alistRemove]
  | cons p t ih =>
      obtain ⟨k2, v2⟩ := p
      by_cases h2 : k2 = k
      · subst h2
        simp [alistRemove, alistGet, Ne.symm h]
      · by_cases h3 : k2 = kq
        · simp [alistRemove, h2, alistGet, h3, h]
        · simp [alistRemove, h2, alistGet, h3, ih]

theorem alistRemove_of_get_none (l : List (κ × β)) (k : κ)
    (h : alistGet l k = none) : alistRemove l k = l := by
  induction l with
  | nil => simp [alistRemove]
  | cons p t ih =>
      obtain ⟨k2, v2⟩ := p
      by_cases h2 : k2 = k
      · simp [alistGet, h2] at h
      · simp [alistGet, h2] at h
        simp [alistRemove, h2, ih h]

theorem alistGet_eq_none_of_not_mem_keys (l : List (κ × β)) (k : κ)
    (h : k ∉ l.map Prod.fst) : alistGet l k = none := by
  induction l with
  | nil => rfl
  | cons p t ih =>
      obtain ⟨k2, v2⟩ := p
      simp only [List.map_cons, List.mem_cons] at h
      push_neg at h
      have h2 : k2 ≠ k := fun hh => h.1 hh.symm
      simp [alistGet, h2, ih h.2]

theorem alistGet_remove_self (l : List (κ × β)) (k : κ) (h : NodupKeys l) :
    alistGet (alistRemove l k) k = none := by
  induction l with
  | nil => rfl
  | cons p t ih =>
      obtain ⟨k2, v2⟩ := p
      simp only [NodupKeys, List.map_cons, List.nodup_cons] at h
      by_cases h2 : k2 = k
      · subst h2
        simpa [alistRemove] using alistGet_eq_none_of_not_mem_keys t k2 h.1
      · simp [alistRemove, h2, alistGet, ih h.2]

theorem mem_keys_of_mem_keys_set (l : List (κ × β)) (k kq : κ) (v : β) :
    kq ∈ (alistSet l k v).map Prod.fst → kq ∈ l.map Prod.fst ∨ kq = k := by
  induction l with
  | nil =>
      intro h
      simpa [alistSet] using h
  | cons p t ih =>
      obtain ⟨k2, v2⟩ := p
      intro h
      by_cases h2 : k2 = k
      · subst h2
        simp [alistSet] at h
        rcases h with h3 | ⟨x, h3⟩
        · exact Or.inr h3
        · exact Or.inl (List.mem_cons.mpr (Or.inr (List.mem_map.mpr ⟨(kq, x), h3, rfl⟩)))
      · simp only [alistSet, if_neg h2, List.map_cons, List.mem_cons] at h
        rcases h with h3 | h3
        · exact Or.inl (List.mem_cons.mpr (Or.inl h3))
        · rcases ih h3 with h4 | h4
          · exact Or.inl (List.mem_cons.mpr (Or.inr h4))
          · exact Or.inr h4

theorem nodupKeys_set (l : List (κ × β)) (k : κ) (v : β) :
    NodupKeys l → NodupKeys (alistSet l k v) := by
  induction l with
  | nil =>
      intro _
      simp [alistSet, NodupKeys]
  | cons p t ih =>
      obtain ⟨k2, v2⟩ := p
      intro h
      simp only [NodupKeys, List.map_cons, List.nodup_cons] at h
      by_cases h2 : k2 = k
      · subst h2
        simp only [NodupKeys, alistSet, List.map_cons]
        simpa [List.nodup_cons] using h
      · have h3 : NodupKeys (alistSet t k v) := ih h.2
        simp only [NodupKeys, alistSet, if_neg h2, List.map_cons, List.nodup_cons]
        refine ⟨?_, h3⟩
        intro hmem
        rcases mem_keys_of_mem_keys_set t k k2 v hmem with h4 | h4
        · exact h.1 h4
        · exact h2 h4

theorem alistGet_of_mem_nodup (l : List (κ × β)) (k : κ) (v : β) :
    NodupKeys l → (k, v) ∈ l → alistGet l k = some v := by
  induction l with
  | nil =>
      intro _ hm
      cases hm
  | cons p t ih =>
      obtain ⟨k2, v2⟩ := p
      intro h hm
      simp only [NodupKeys, List.map_cons, List.nodup_cons] at h
      rcases List.mem_cons.mp hm with h2 | h2
      · have hk : k = k2 := congrArg Prod.fst h2
        have hv : v = v2 := congrArg Prod.snd h2
        subst hk; subst hv
        simp [alistGet]
      · by_cases h3 : k2 = k
        · subst h3
          exact absurd (List.mem_map.mpr ⟨(k2, v), h2, rfl⟩) h.1
        · simp [alistGet, h3, ih h.2 h2]

end AlistLemmas

section CountLemmas

variable {κ β : Type} [DecidableEq κ]

theorem countP_alistRemove_le (l : List (κ × β)) (k : κ) (p : κ × β → Bool) :
    (alistRemove l k).countP p ≤ l.countP p := by
  induction l with
  | nil => simp [alistRemove]
  | cons q t ih =>
      obtain ⟨k2, v2⟩ := q
      by_cases h : k2 = k
      · simp only [alistRemove, if_pos h, List.countP_cons]
        omega
      · simp only [alistRemove, if_neg h, List.countP_cons]
        omega

theorem countP_alistSet_le (l : List (κ × β)) (k : κ) (v : β) (p : κ × β → Bool) :
    (alistSet l k v).countP p ≤ l.countP p + 1 := by
  induction l with
  | nil =>
      simp only [alistSet, List.countP_cons, List.countP_nil]
      split <;> simp
  | cons q t ih =>
      obtain ⟨k2, v2⟩ := q
      by_cases h : k2 = k
      · simp only [alistSet, if_pos h, List.countP_cons]
        by_cases hb : p (k, v) = true <;> by_cases hb2 : p (k2, v2) = true <;>
          simp [hb, hb2] <;> try omega
      · simp only [alistSet, if_neg h, List.countP_cons]
        omega

theorem countP_alistSet_eq_of_get (l : List (κ × β)) (k : κ) (v v0 : β) (p : κ × β → Bool)
    (hg : alistGet l k = some v0) (hp : p (k, v) = p (k, v0)) :
    (alistSet l k v).countP p = l.countP p := by
  induction l with
  | nil => cases hg
  | cons q t ih =>
      obtain ⟨k2, v2⟩ := q
      by_cases h : k2 = k
      · subst h
        simp [alistGet] at hg
        subst hg
        simp [alistSet, List.countP_cons, hp]
      · simp only [alistGet, if_neg h] at hg
        simp only [alistSet, if_neg h, List.countP_cons, ih hg]

theorem countP_eq_alistRemove_add (l : List (κ × β)) (k : κ) (v : β) (p : κ × β → Bool)
    (hg : alistGet l k = some v) :
    l.countP p = (alistRemove l k).countP p + (if p (k, v) then 1 else 0) := by
  induction l with
  | nil => cases hg
  | cons q t ih =>
      obtain ⟨k2, v2⟩ := q
      by_cases h : k2 = k
      · subst h
        simp [alistGet] at hg
        subst hg
        simp [alistRemove, List.countP_cons]
      · simp only [alistGet, if_neg h] at hg
        simp only [alistRemove, if_neg h, List.countP_cons, ih hg]
        omega

theorem countP_map_le {α : Type} (l : List α) (g : α → α) (p : α → Bool)
    (hg : ∀ a, p (g a) = true → p a = true) :
    (l.map g).countP p ≤ l.countP p := by
  induction l with
  | nil => simp
  | cons a t ih =>
      simp only [List.map_cons, List.countP_cons]
      by_cases h : p (g a) = true
      · have h2 := hg a h
        simp only [h, h2, if_pos rfl]
        omega
      · have h2 : (if p (g a) = true then 1 else 0) = 0 := by simp [h]
        have h3 : (if p a = true then 1 else 0) ≥ 0 := by omega
        omega

theorem alistGet_map_snd (l : List (κ × β)) (k : κ) (g : β → β) :
    alistGet (l.map (fun q => (q.1, g q.2))) k = (alistGet l k).map g := by
  induction l with
  | nil => rfl
  | cons q t ih =>
      obtain ⟨k2, v2⟩ := q
      by_cases h : k2 = k
      · simp [alistGet, h]
      · simp [alistGet, h, ih]

end CountLemmas

section WorldLemmas

theorem stop_streams_eq (w : World) (sid : String) (c : Bool) :
    (stop_stream_process w sid c).active_streams = alistRemove w.active_streams sid := by
  unfold stop_stream_process
  cases hg : alistGet w.active_streams sid with
  | none =>
      rw [alistRemove_of_get_none w.active_streams sid hg]
      cases c <;> simp
  | some sd =>
      cases hp : sd.process with
      | none => cases c <;> simp [hp]
      | some pid =>
          cases c <;>
            simp [hp, apply_ite World.active_streams, apply_ite World.dirs,
              apply_ite World.procs, apply_ite World.pending]

theorem stop_dirs_true (w : World) (sid : String) :
    (stop_stream_process w sid true).dirs = alistRemove w.dirs sid := by
  unfold stop_stream_process
  cases hg : alistGet w.active_streams sid with
  | none => simp
  | some sd =>
      cases hp : sd.process with
      | none => simp [hp]
      | some pid =>
          simp [hp, apply_ite World.active_streams, apply_ite World.dirs,
            apply_ite World.procs, apply_ite World.pending]

theorem stop_dirs_false (w : World) (sid : String) :
    (stop_stream_process w sid false).dirs = w.dirs := by
  unfold stop_stream_process
  cases hg : alistGet w.active_streams sid with
  | none => simp
  | some sd =>
      cases hp : sd.process with
      | none => simp [hp]
      | some pid =>
          simp [hp, apply_ite World.active_streams, apply_ite World.dirs,
            apply_ite World.procs, apply_ite World.pending]

theorem stop_pending_eq (w : World) (sid : String) (c : Bool) :
    (stop_stream_process w sid c).pending = w.pending := by
  unfold stop_stream_process
  cases hg : alistGet w.active_streams sid with
  | none => cases c <;> simp
  | some sd =>
      cases hp : sd.process with
      | none => cases c <;> simp [hp]
      | some pid =>
          cases c <;>
            simp [hp, apply_ite World.active_streams, apply_ite World.dirs,
              apply_ite World.procs, apply_ite World.pending]

theorem runningCount_stop_le (w : World) (sid : String) (c : Bool) :
    runningCount (stop_stream_process w sid c) ≤ runningCount w := by
  unfold runningCount
  rw [stop_streams_eq]
  exact countP_alistRemove_le w.active_streams sid _

theorem runningCount_admitPhase1_le (w : World) (sid url : String) :
    runningCount (admitPhase1 w sid url) ≤ runningCount w := by
  unfold admitPhase1
  cases findOrphan w.active_streams url sid with
  | none => exact Nat.le_refl _
  | some osid => exact runningCount_stop_le w osid true

theorem update_status_dirs (w : World) (sid m : String) :
    (update_status w sid m).dirs = w.dirs := by
  unfold update_status
  cases alistGet w.active_streams sid <;> simp

theorem update_status_procs (w : World) (sid m : String) :
    (update_status w sid m).procs = w.procs := by
  unfold update_status
  cases alistGet w.active_streams sid <;> simp

theorem update_status_pending (w : World) (sid m : String) :
    (update_status w sid m).pending = w.pending := by
  unfold update_status
  cases alistGet w.active_streams sid <;> simp

theorem update_status_streams_nodup (w : World) (sid m : String)
    (h : NodupKeys w.active_streams) : NodupKeys (update_status w sid m).active_streams := by
  unfold update_status
  cases alistGet w.active_streams sid with
  | none => simpa using h
  | some sd => simpa using nodupKeys_set w.active_streams sid _ h

theorem runningCount_setProgressTask (w : World) (sid : String) :
    runningCount (setProgressTask w sid) = runningCount w := by
  unfold setProgressTask runningCount
  cases hg : alistGet w.active_streams sid with
  | none => rfl
  | some sd =>
      have h2 := countP_alistSet_eq_of_get w.active_streams sid
        { sd with progress_task := some () } sd (fun p => p.2.process_running) hg rfl
      simpa using h2

theorem setProgressTask_dirs (w : World) (sid : String) :
    (setProgressTask w sid).dirs = w.dirs := by
  unfold setProgressTask
  cases alistGet w.active_streams sid <;> simp

theorem setProgressTask_procs (w : World) (sid : String) :
    (setProgressTask w sid).procs = w.procs := by
  unfold setProgressTask
  cases alistGet w.active_streams sid <;> simp

theorem setProgressTask_pending (w : World) (sid : String) :
    (setProgressTask w sid).pending = w.pending := by
  unfold setProgressTask
  cases alistGet w.active_streams sid <;> simp

theorem setProgressTask_get_ne (w : World) (sid kq : String) (h : kq ≠ sid) :
    alistGet (setProgressTask w sid).active_streams kq = alistGet w.active_streams kq := by
  unfold setProgressTask
  cases alistGet w.active_streams sid with
  | none => rfl
  | some sd => simpa using alistGet_set_ne w.active_streams sid kq _ h

end WorldLemmas

section HandlerLemmas

theorem setProgressTask_get_self (w : World) (sid : String) (sd : SessionData)
    (h : alistGet w.active_streams sid = some sd) :
    alistGet (setProgressTask w sid).active_streams sid
      = some { sd with progress_task := some () } := by
  unfold setProgressTask
  rw [h]
  simp [alistGet_set_self]

theorem handle_stream_post_invalid (w : World) (sid url vi : String) (si : Option String)
    (now : Nat) (h : validate_session_id sid = false) :
    handle_stream_post w sid url vi si now = (.badRequest, w) := by
  simp [handle_stream_post, h]

theorem handle_stream_post_bad_params (w : World) (sid url vi : String) (si : Option String)
    (now : Nat) (hv : validate_session_id sid = true) (h : pyStrip url = "" ∨ vi = "") :
    handle_stream_post w sid url vi si now = (.badRequest, w) := by
  rcases h with h | h <;> simp [handle_stream_post, hv, h]

theorem handle_stream_post_busy (w : World) (sid url vi : String) (si : Option String)
    (now : Nat) (hv : validate_session_id sid = true) (hu : ¬ pyStrip url = "") (hvi : ¬ vi = "")
    (hc : MAX_CONCURRENT_STREAMS ≤ runningCount (admitPhase1 w sid (pyStrip url))) :
    handle_stream_post w sid url vi si now = (.busy, admitPhase1 w sid (pyStrip url)) := by
  simp [handle_stream_post, hv, hu, hvi, hc]

theorem handle_stream_post_ok (w : World) (sid url vi : String) (si : Option String)
    (now : Nat) (hv : validate_session_id sid = true) (hu : ¬ pyStrip url = "") (hvi : ¬ vi = "")
    (hc : runningCount (admitPhase1 w sid (pyStrip url)) < MAX_CONCURRENT_STREAMS) :
    handle_stream_post w sid url vi si now =
      (.ok,
        setProgressTask
          { admitPhase1 w sid (pyStrip url) with
              active_streams := alistSet (admitPhase1 w sid (pyStrip url)).active_streams sid
                ⟨none, now, true, none, none, "Initializing...", ⟨pyStrip url, vi, si⟩⟩,
              pending := (admitPhase1 w sid (pyStrip url)).pending ++ [⟨sid, pyStrip url, vi, si, 0, 0⟩] }
          sid) := by
  have hc2 : ¬ MAX_CONCURRENT_STREAMS ≤ runningCount (admitPhase1 w sid (pyStrip url)) := by omega
  simp [handle_stream_post, hv, hu, hvi, hc2]

theorem runningCount_handle_stream_post_le (w : World) (sid url vi : String)
    (si : Option String) (now : Nat) (h : runningCount w ≤ MAX_CONCURRENT_STREAMS) :
    runningCount (handle_stream_post w sid url vi si now).2 ≤ MAX_CONCURRENT_STREAMS := by
  by_cases hv : validate_session_id sid = true
  · by_cases hp : pyStrip url = "" ∨ vi = ""
    · rw [handle_stream_post_bad_params w sid url vi si now hv hp]
      exact h
    · push_neg at hp
      by_cases hc : MAX_CONCURRENT_STREAMS ≤ runningCount (admitPhase1 w sid (pyStrip url))
      · rw [handle_stream_post_busy w sid url vi si now hv hp.1 hp.2 hc]
        exact le_trans (runningCount_admitPhase1_le w sid (pyStrip url)) h
      · push_neg at hc
        rw [handle_stream_post_ok w sid url vi si now hv hp.1 hp.2 hc]
        rw [runningCount_setProgressTask]
        have h2 := countP_alistSet_le (admitPhase1 w sid (pyStrip url)).active_streams sid
          (⟨none, now, true, none, none, "Initializing...", ⟨pyStrip url, vi, si⟩⟩ : SessionData)
          (fun p => p.2.process_running)
        have h3 : runningCount (admitPhase1 w sid (pyStrip url)) < MAX_CONCURRENT_STREAMS := hc
        unfold runningCount at h3 ⊢
        simp only at h2 ⊢
        omega
  · rw [handle_stream_post_invalid w sid url vi si now (by simpa using hv)]
    exact h

theorem runningCount_handle_stop_le (w : World) (sid : String) (hard : Option String) :
    runningCount (handle_stop_stream w sid hard).2 ≤ runningCount w := by
  unfold handle_stop_stream
  by_cases hv : validate_session_id sid = true
  · simp only [hv]
    simpa using runningCount_stop_le w sid _
  · simp [hv]

theorem runningCount_heartbeat_eq (w : World) (sid : String) (now : Nat) :
    runningCount (handle_heartbeat w sid now).2 = runningCount w := by
  unfold handle_heartbeat
  by_cases hv : validate_session_id sid = true
  · simp only [hv]
    cases hg : alistGet w.active_streams sid with
    | none => simp
    | some sd =>
        have h2 := countP_alistSet_eq_of_get w.active_streams sid
          { sd with last_seen := now } sd (fun p => p.2.process_running) hg rfl
        simpa [runningCount] using h2
  · simp [hv]

theorem reaperStepRecord_running_mono (procs : List (Nat × Bool)) (now : Nat)
    (d : SessionData) (h : (reaperStepRecord procs now d).process_running = true) :
    d.process_running = true := by
  unfold reaperStepRecord at h
  cases hp : d.process with
  | none => rw [hp] at h; exact h
  | some pid =>
      rw [hp] at h
      split at h
      · split at h
        · simp at h
        · exact h
      · exact h

theorem runningCount_reaperScan_le (w : World) (now : Nat) :
    runningCount (reaperScan w now).1 ≤ runningCount w := by
  have h := countP_map_le w.active_streams
      (fun q => (q.1, reaperStepRecord w.procs now q.2)) (fun q => q.2.process_running)
      (fun a ha => reaperStepRecord_running_mono w.procs now a.2 ha)
  simpa [reaperScan, runningCount] using h

theorem runningCount_foldl_stop_le (sids : List String) (w : World) :
    runningCount (sids.foldl (fun wa sid => stop_stream_process wa sid true) w)
      ≤ runningCount w := by
  induction sids generalizing w with
  | nil => simp
  | cons s t ih =>
      simp only [List.foldl_cons]
      exact le_trans (ih _) (runningCount_stop_le w s true)

theorem runningCount_reaper_sweep_le (w : World) (now : Nat) :
    runningCount (reaper_sweep w now) ≤ runningCount w := by
  have h1 := runningCount_reaperScan_le w now
  unfold reaper_sweep
  rcases hsc : reaperScan w now with ⟨w1, kills⟩
  rw [hsc] at h1
  exact le_trans (runningCount_foldl_stop_le kills w1) h1

end HandlerLemmas

section MoreHelperLemmas

theorem stop_of_get_none (w : World) (sid : String) (c : Bool)
    (h : alistGet w.active_streams sid = none) :
    stop_stream_process w sid c =
      if c then { w with dirs := alistRemove w.dirs sid } else w := by
  unfold stop_stream_process
  rw [h]

theorem findOrphan_eq_none (l : List (String × SessionData)) (url sid : String)
    (h : ∀ p ∈ l, ¬ (p.2.stream_context.magnet_url = url ∧ p.1 ≠ sid)) :
    findOrphan l url sid = none := by
  induction l with
  | nil => rfl
  | cons q t ih =>
      obtain ⟨k, v⟩ := q
      have hq := h (k, v) (List.mem_cons_self _ _)
      simp only [findOrphan, if_neg hq]
      exact ih (fun p hp => h p (List.mem_cons_of_mem _ hp))

theorem findOrphan_eq_some (l : List (String × SessionData)) (url sid sid2 : String)
    (sd2 : SessionData) (hm : (sid2, sd2) ∈ l)
    (hurl : sd2.stream_context.magnet_url = url) (hne : sid2 ≠ sid)
    (huniq : ∀ p ∈ l, p.2.stream_context.magnet_url = url → p.1 ≠ sid → p.1 = sid2) :
    findOrphan l url sid = some sid2 := by
  induction l with
  | nil => cases hm
  | cons q t ih =>
      obtain ⟨k, v⟩ := q
      by_cases hcond : v.stream_context.magnet_url = url ∧ k ≠ sid
      · have hk : k = sid2 := huniq (k, v) (List.mem_cons_self _ _) hcond.1 hcond.2
        subst hk
        simp only [findOrphan, if_pos hcond]
      · have hm2 : (sid2, sd2) ∈ t := by
          rcases List.mem_cons.mp hm with h2 | h2
          · exfalso
            have hk : sid2 = k := congrArg Prod.fst h2
            have hv : sd2 = v := congrArg Prod.snd h2
            exact hcond ⟨hv ▸ hurl, hk ▸ hne⟩
          · exact h2
        simp only [findOrphan, if_neg hcond]
        exact ih hm2 (fun p hp => huniq p (List.mem_cons_of_mem _ hp))

theorem reaperStepRecord_no_handle (procs : List (Nat × Bool)) (now : Nat)
    (d : SessionData) (h : d.process = none) : reaperStepRecord procs now d = d := by
  unfold reaperStepRecord
  rw [h]

theorem reaperStepRecord_alive (procs : List (Nat × Bool)) (now : Nat) (d : SessionData)
    (pid : Nat) (h : d.process = some pid) (ha : alistGet procs pid = some true) :
    reaperStepRecord procs now d = d := by
  unfold reaperStepRecord
  rw [h]
  have hb : (alistGet procs pid == some true) = true := by simp [ha]
  simp [hb]

theorem reaperStepRecord_dead_running (procs : List (Nat × Bool)) (now : Nat)
    (d : SessionData) (pid : Nat) (h : d.process = some pid)
    (hdead : ¬ alistGet procs pid = some true) (hr : d.process_running = true) :
    reaperStepRecord procs now d = { d with process_running := false, last_seen := now } := by
  unfold reaperStepRecord
  rw [h]
  have hb : (alistGet procs pid == some true) = false := beq_eq_false_iff_ne.mpr hdead
  simp [hb, hr]

theorem reaperScan_streams (w : World) (now : Nat) :
    (reaperScan w now).1.active_streams
      = w.active_streams.map (fun q => (q.1, reaperStepRecord w.procs now q.2)) := rfl

theorem reaperScan_kills (w : World) (now : Nat) :
    (reaperScan w now).2
      = ((w.active_streams.map (fun q => (q.1, reaperStepRecord w.procs now q.2))).filter
          (fun p => decide (p.2.process_running = true
            ∧ now - p.2.last_seen > SESSION_TIMEOUT_SECONDS))).map Prod.fst := rfl

end MoreHelperLemmas

/-- The pattern `(\\d+)` inside a raw string demands a literal backslash in
the file name, and whenever it does match, the captured text starts with
that backslash, which `int` rejects: the per-file computation of source
line 562 can never produce a number — it always raises. -/
theorem reSearchGroup_bind_pyInt_none (cs : List Char) :
    (reSearchGroup cs).bind pyIntOfChars = none := by
  induction cs with
  | nil => rfl
  | cons c rest ih =>
      unfold reSearchGroup
      by_cases hc : c = '\\'
      · rw [if_pos hc]
        by_cases hd : (rest.takeWhile (· = 'd')).isEmpty
        · rw [if_pos hd]
          exact ih
        · rw [if_neg hd]
          show pyIntOfChars ('\\' :: rest.takeWhile (· = 'd')) = none
          simp [pyIntOfChars, List.all_cons, show Char.isDigit '\\' = false from by decide]
      · rw [if_neg hc]
        exact ih

theorem segIndexOfFile_none (f : String) : segIndexOfFile f = none :=
  reSearchGroup_bind_pyInt_none f.data

/-- A session ready for restart: preserved context, a progress snapshot of
1,400,000 consumed bytes, and seven completed output chunks on disk
(`segment00000.ts` … `segment00006.ts`) in a playlist that ends with the
terminal marker. -/
def restartReadyRecord : SessionData :=
  ⟨some 9, 50, true, some 1400000, some (), "streaming", ⟨"magnet:?xt=abc", "0", none⟩⟩

/-- The artifact directory of that session. -/
def restartReadyDir : SessionDir :=
  ⟨some ["#EXTM3U", "#EXT-X-VERSION:3", "#EXT-X-ENDLIST"],
   ["segment00000.ts", "segment00001.ts", "segment00002.ts", "segment00003.ts",
    "segment00004.ts", "segment00005.ts", "segment00006.ts"], false⟩

/-- World holding exactly that session. -/
def restartReadyWorld : World :=
  ⟨[("s", restartReadyRecord)], [("s", restartReadyDir)], [(9, true)], []⟩

/-- C3: the claim says restarting a session with a preserved context and
seven completed chunks relaunches the pipeline with
`resumeFrom = {1400000, 7}`.  On the code this request never reaches the
relaunch: the raw string `r'(\\d+)'` on source line 562 is the regex
"a literal backslash followed by letters d", which matches no
`segmentNNNNN.ts` name, so `re.search(...).group(1)` raises
`AttributeError` (and any match it could make starts with a backslash,
which `int` rejects); `error_middleware` turns the exception into a 500
and no new pipeline is scheduled, while the playlist has already been
rewritten.  The first conjunct shows the per-file index parse fails on
every file name; the rest evaluates the handler on the session above. -/
theorem C3_restart_segment_parse_always_raises :
    (∀ f : String, segIndexOfFile f = none) ∧
    (handle_restart_stream restartReadyWorld "s" 60).1 = Response.internalError ∧
    (handle_restart_stream restartReadyWorld "s" 60).2.active_streams
      = restartReadyWorld.active_streams ∧
    (handle_restart_stream restartReadyWorld "s" 60).2.pending = [] :=
  ⟨segIndexOfFile_none, by decide, by decide, by decide⟩

/-- The first component of the restart filesystem phase only rewrites the
playlist: the registry is untouched. -/
theorem restartScanDir_fst_streams (w : World) (sid : String) :
    (restartScanDir w sid).1.active_streams = w.active_streams := by
  unfold restartScanDir
  cases hg : alistGet w.dirs sid with
  | none => rfl
  | some dir =>
      simp only
      split
      · rfl
      · split <;> rfl

/-- No path of `handle_restart_stream` changes the registry: the handler
answers 400, 500 or 404 before touching it, and on the remaining path it
deadlocks on `streams_lock` before the pop and re-insert. -/
theorem restart_streams_unchanged (w : World) (sid : String) (now : Nat) :
    (handle_restart_stream w sid now).2.active_streams = w.active_streams := by
  unfold handle_restart_stream
  by_cases hv : validate_session_id sid = true
  · simp only [hv, Bool.not_true]
    have hw1 := restartScanDir_fst_streams w sid
    rcases hsc : restartScanDir w sid with ⟨w1, res⟩
    rw [hsc] at hw1
    cases res with
    | error e => simpa using hw1
    | ok n =>
        cases hg : alistGet w1.active_streams sid with
        | none => simpa [hg] using hw1
        | some sd => simpa [hg] using hw1
  · have hv2 : validate_session_id sid = false := by
      cases h2 : validate_session_id sid
      · rfl
      · exact absurd h2 hv
    simp [hv2]

theorem runningCount_restart_eq (w : World) (sid : String) (now : Nat) :
    runningCount (handle_restart_stream w sid now).2 = runningCount w := by
  unfold runningCount
  rw [restart_streams_unchanged]

/-- Stale-launch trace, step 1: admit session s1; a launch task with its
arguments is created. -/
def staleW1 : World := (handle_stream_post initWorld "s1" "u1" "0" none 100).2

/-- The launch-task arguments both admissions of s1 create. -/
def staleLaunch : LaunchArgs := ⟨"s1", "u1", "0", none, 0, 0⟩

/-- Step 2: a second POST for the same session id (nothing in
`handle_stream_post` forbids it) replaces the record and creates a second
launch task with the same arguments. -/
def staleW2 : World := (handle_stream_post staleW1 "s1" "u1" "0" none 100).2

/-- Step 3: the first launch task completes quickly and spawns pid 1;
the second is still suspended in its analysis phase (the ffprobe step may
take up to `FFPROBE_TIMEOUT_SECONDS = 30` seconds in a worker thread). -/
def staleW3 : World := run_pending_launch staleW2 staleLaunch .compatible (.success 1)

/-- Step 4: pid 1 exits on its own. -/
def staleW4 : World := { staleW3 with procs := alistSet staleW3.procs 1 false }

/-- Step 5: a reaper sweep (period 30 s, so one occurs while the second
launch task still probes) reconciles s1's flag to false. -/
def staleW5 : World := reaper_sweep staleW4 100

/-- Steps 6-9: four more admissions fill every slot of the cap. -/
def staleW6 : World := (handle_stream_post staleW5 "s2" "u2" "0" none 100).2

def staleW7 : World := (handle_stream_post staleW6 "s3" "u3" "0" none 100).2

def staleW8 : World := (handle_stream_post staleW7 "s4" "u4" "0" none 100).2

def staleW9 : World := (handle_stream_post staleW8 "s5" "u5" "0" none 100).2

/-- Step 10: the stale second launch task finishes its analysis, spawns
pid 2 and — source lines 406-410 — sets `process_running = True` on s1's
record unconditionally, with no capacity check. -/
def staleW10 : World := run_pending_launch staleW9 staleLaunch .timeout (.success 2)

/-- C1, counterexample: a state reachable by admissions, launch
completions, a process exit and a reaper sweep — no restart involved — in
which five records carry `process_running = true`, exceeding the cap of
four.  Two admissions for the same session id leave two launch tasks; the
first completes and its pipeline dies; the reaper reconciles the flag to
false; four further admissions fill the cap; then the stale second task
completes and `process_stream_task` (source lines 406-410) forces the
flag back to true without counting running records. -/
theorem C1_cap_exceeded_by_stale_launch :
    Reachable staleW10 ∧ MAX_CONCURRENT_STREAMS < runningCount staleW10 := by
  constructor
  · have h1 : Reachable staleW1 :=
      Reachable.step Reachable.init (Step.post initWorld "s1" "u1" "0" none 100)
    have h2 : Reachable staleW2 :=
      Reachable.step h1 (Step.post staleW1 "s1" "u1" "0" none 100)
    have h3 : Reachable staleW3 :=
      Reachable.step h2
        (Step.launch staleW2 staleLaunch .compatible (.success 1) (by decide)
          (by
            intro pid hpid
            injection hpid with hpid2
            subst hpid2
            decide))
    have h4 : Reachable staleW4 := Reachable.step h3 (Step.procExit staleW3 1 (by decide))
    have h5 : Reachable staleW5 := Reachable.step h4 (Step.reaper staleW4 100)
    have h6 : Reachable staleW6 :=
      Reachable.step h5 (Step.post staleW5 "s2" "u2" "0" none 100)
    have h7 : Reachable staleW7 :=
      Reachable.step h6 (Step.post staleW6 "s3" "u3" "0" none 100)
    have h8 : Reachable staleW8 :=
      Reachable.step h7 (Step.post staleW7 "s4" "u4" "0" none 100)
    have h9 : Reachable staleW9 :=
      Reachable.step h8 (Step.post staleW8 "s5" "u5" "0" none 100)
    exact Reachable.step h9
      (Step.launch staleW9 staleLaunch .timeout (.success 2) (by decide)
        (by
          intro pid hpid
          injection hpid with hpid2
          subst hpid2
          decide))
  · decide

/-- C1 (amended): every HTTP operation preserves the bound
`runningCount ≤ MAX_CONCURRENT_STREAMS` — admissions refuse to insert at
or above the cap, stops, heartbeats and reaper sweeps never increase the
running count, and restarts never change the registry at all (they answer
an error or deadlock before the re-insert) — but the claimed invariant
still fails, because the launch task `process_stream_task` forces
`process_running` back to true with no capacity check when it completes,
so a stale launch task for a session whose previous pipeline already died
and was reconciled by the reaper can push the count above the cap (see
the counterexample). -/
theorem C1_cap_preserved_by_handlers :
    (∀ (w : World) (sid url vi : String) (si : Option String) (now : Nat),
        runningCount w ≤ MAX_CONCURRENT_STREAMS →
        runningCount (handle_stream_post w sid url vi si now).2 ≤ MAX_CONCURRENT_STREAMS)
  ∧ (∀ (w : World) (sid : String) (c : Bool),
        runningCount (stop_stream_process w sid c) ≤ runningCount w)
  ∧ (∀ (w : World) (sid : String) (hard : Option String),
        runningCount (handle_stop_stream w sid hard).2 ≤ runningCount w)
  ∧ (∀ (w : World) (sid : String) (now : Nat),
        runningCount (handle_heartbeat w sid now).2 = runningCount w)
  ∧ (∀ (w : World) (now : Nat),
        runningCount (reaper_sweep w now) ≤ runningCount w)
  ∧ (∀ (w : World) (sid : String) (now : Nat),
        runningCount (handle_restart_stream w sid now).2 = runningCount w) :=
  ⟨runningCount_handle_stream_post_le, runningCount_stop_le,
   runningCount_handle_stop_le, runningCount_heartbeat_eq,
   runningCount_reaper_sweep_le, runningCount_restart_eq⟩

/-- Witness for the amended C1 at a concrete input. -/
theorem C1_cap_preserved_by_handlers_witness :
    runningCount initWorld ≤ MAX_CONCURRENT_STREAMS ∧
    runningCount (handle_stream_post initWorld "a" "urlA" "0" none 5).2
      ≤ MAX_CONCURRENT_STREAMS :=
  ⟨by decide,
   C1_cap_preserved_by_handlers.1 initWorld "a" "urlA" "0" none 5 (by decide)⟩

/-- C2: admission counts running records and decides atomically in the
same transition.  (1) When the count (after the orphan cleanup phase) is
at or above `MAX_CONCURRENT_STREAMS`, the request is rejected with the
busy answer and the registry is exactly the orphan-cleanup result — no
record is inserted.  (2) Below the cap, the same transition inserts a
record for the requested id with `process_running = true`, no process
handle, and `last_seen = now`.  (3) After a capped rejection from a state
within the cap, stopping any running session with cleanup makes a retry of
the same admission succeed. -/
theorem C2_admission_count_and_insert :
    (∀ (w : World) (sid url vi : String) (si : Option String) (now : Nat),
        validate_session_id sid = true → ¬ pyStrip url = "" → ¬ vi = "" →
        MAX_CONCURRENT_STREAMS ≤ runningCount (admitPhase1 w sid (pyStrip url)) →
        handle_stream_post w sid url vi si now = (.busy, admitPhase1 w sid (pyStrip url)))
  ∧ (∀ (w : World) (sid url vi : String) (si : Option String) (now : Nat),
        validate_session_id sid = true → ¬ pyStrip url = "" → ¬ vi = "" →
        runningCount (admitPhase1 w sid (pyStrip url)) < MAX_CONCURRENT_STREAMS →
        (handle_stream_post w sid url vi si now).1 = .ok ∧
        alistGet (handle_stream_post w sid url vi si now).2.active_streams sid
          = some ⟨none, now, true, none, some (), "Initializing...", ⟨pyStrip url, vi, si⟩⟩)
  ∧ (∀ (w : World) (sid sid2 : String) (sd2 : SessionData) (url vi : String)
        (si : Option String) (now now2 : Nat),
        validate_session_id sid = true → ¬ pyStrip url = "" → ¬ vi = "" →
        runningCount w ≤ MAX_CONCURRENT_STREAMS →
        (handle_stream_post w sid url vi si now).1 = .busy →
        alistGet (handle_stream_post w sid url vi si now).2.active_streams sid2 = some sd2 →
        sd2.process_running = true →
        (handle_stream_post
            (stop_stream_process (handle_stream_post w sid url vi si now).2 sid2 true)
            sid url vi si now2).1 = .ok) := by
  refine ⟨?_, ?_, ?_⟩
  · intro w sid url vi si now hv hu hvi hc
    exact handle_stream_post_busy w sid url vi si now hv hu hvi hc
  · intro w sid url vi si now hv hu hvi hc
    rw [handle_stream_post_ok w sid url vi si now hv hu hvi hc]
    refine ⟨rfl, ?_⟩
    have hg : alistGet
        (alistSet (admitPhase1 w sid (pyStrip url)).active_streams sid
          ⟨none, now, true, none, none, "Initializing...", ⟨pyStrip url, vi, si⟩⟩) sid
        = some ⟨none, now, true, none, none, "Initializing...", ⟨pyStrip url, vi, si⟩⟩ :=
      alistGet_set_self _ sid _
    have h2 := setProgressTask_get_self
      { admitPhase1 w sid (pyStrip url) with
          active_streams := alistSet (admitPhase1 w sid (pyStrip url)).active_streams sid
            ⟨none, now, true, none, none, "Initializing...", ⟨pyStrip url, vi, si⟩⟩,
          pending := (admitPhase1 w sid (pyStrip url)).pending
            ++ [⟨sid, pyStrip url, vi, si, 0, 0⟩] }
      sid ⟨none, now, true, none, none, "Initializing...", ⟨pyStrip url, vi, si⟩⟩ hg
    simpa using h2
  · intro w sid sid2 sd2 url vi si now now2 hv hu hvi hle hbusy hget hrun
    by_cases hc : MAX_CONCURRENT_STREAMS ≤ runningCount (admitPhase1 w sid (pyStrip url))
    · have hbeq : (handle_stream_post w sid url vi si now).2 = admitPhase1 w sid (pyStrip url) := by
        rw [handle_stream_post_busy w sid url vi si now hv hu hvi hc]
      rw [hbeq] at hget ⊢
      have hcountB : runningCount (admitPhase1 w sid (pyStrip url))
          = (alistRemove (admitPhase1 w sid (pyStrip url)).active_streams sid2).countP
              (fun p => p.2.process_running) + 1 := by
        have h3 := countP_eq_alistRemove_add (admitPhase1 w sid (pyStrip url)).active_streams
          sid2 sd2 (fun p => p.2.process_running) hget
        simpa [runningCount, hrun] using h3
      have hstop : runningCount (stop_stream_process (admitPhase1 w sid (pyStrip url)) sid2 true)
          = (alistRemove (admitPhase1 w sid (pyStrip url)).active_streams sid2).countP
              (fun p => p.2.process_running) := by
        unfold runningCount
        rw [stop_streams_eq]
      have hlt : runningCount
          (admitPhase1 (stop_stream_process (admitPhase1 w sid (pyStrip url)) sid2 true)
            sid (pyStrip url)) < MAX_CONCURRENT_STREAMS := by
        have hA := runningCount_admitPhase1_le
          (stop_stream_process (admitPhase1 w sid (pyStrip url)) sid2 true) sid (pyStrip url)
        have hB := runningCount_admitPhase1_le w sid (pyStrip url)
        omega
      rw [handle_stream_post_ok _ sid url vi si now2 hv hu hvi hlt]
    · rw [handle_stream_post_ok w sid url vi si now hv hu hvi (by omega)] at hbusy
      simp at hbusy

/-- Witness for C2 at a concrete input: the very first admission succeeds
and stores the expected record. -/
theorem C2_admission_count_and_insert_witness :
    (handle_stream_post initWorld "s0" "u0" "0" none 3).1 = Response.ok ∧
    alistGet (handle_stream_post initWorld "s0" "u0" "0" none 3).2.active_streams "s0"
      = some ⟨none, 3, true, none, some (), "Initializing...", ⟨pyStrip "u0", "0", none⟩⟩ :=
  C2_admission_count_and_insert.2.1 initWorld "s0" "u0" "0" none 3 (by decide) (by decide)
    (by decide) (by decide)

/-- C4: content-identity preemption.  (1) When an admission for `sid`
with locator `pyStrip url` runs in a registry (with the unique keys of a
Python dict) in which some other session `sid2` is the one holding a
record for the same locator, then after the admission — accepted or
rejected — `sid2` is gone from the registry and its artifact directory is
gone from the disk state.  (2) When no record holds the requested
locator under a different id, the preemption phase leaves the state
untouched. -/
theorem C4_same_content_preemption :
    (∀ (w : World) (sid sid2 : String) (sd2 : SessionData) (url vi : String)
        (si : Option String) (now : Nat),
        validate_session_id sid = true → ¬ pyStrip url = "" → ¬ vi = "" →
        NodupKeys w.active_streams → NodupKeys w.dirs →
        (sid2, sd2) ∈ w.active_streams →
        sd2.stream_context.magnet_url = pyStrip url → sid2 ≠ sid →
        (∀ p ∈ w.active_streams,
            p.2.stream_context.magnet_url = pyStrip url → p.1 ≠ sid → p.1 = sid2) →
        alistGet (handle_stream_post w sid url vi si now).2.active_streams sid2 = none ∧
        alistGet (handle_stream_post w sid url vi si now).2.dirs sid2 = none)
  ∧ (∀ (w : World) (sid video_url : String),
        (∀ p ∈ w.active_streams,
            ¬ (p.2.stream_context.magnet_url = video_url ∧ p.1 ≠ sid)) →
        admitPhase1 w sid video_url = w) := by
  constructor
  · intro w sid sid2 sd2 url vi si now hv hu hvi hnds hndd hm hurl hne huniq
    have hfo : findOrphan w.active_streams (pyStrip url) sid = some sid2 :=
      findOrphan_eq_some w.active_streams (pyStrip url) sid sid2 sd2 hm hurl hne huniq
    have hph1 : admitPhase1 w sid (pyStrip url) = stop_stream_process w sid2 true := by
      unfold admitPhase1
      rw [hfo]
    have hsg : alistGet (admitPhase1 w sid (pyStrip url)).active_streams sid2 = none := by
      rw [hph1, stop_streams_eq]
      exact alistGet_remove_self w.active_streams sid2 hnds
    have hdg : alistGet (admitPhase1 w sid (pyStrip url)).dirs sid2 = none := by
      rw [hph1, stop_dirs_true]
      exact alistGet_remove_self w.dirs sid2 hndd
    by_cases hc : MAX_CONCURRENT_STREAMS ≤ runningCount (admitPhase1 w sid (pyStrip url))
    · rw [handle_stream_post_busy w sid url vi si now hv hu hvi hc]
      exact ⟨hsg, hdg⟩
    · push_neg at hc
      rw [handle_stream_post_ok w sid url vi si now hv hu hvi hc]
      constructor
      · have h2 := setProgressTask_get_ne
          { admitPhase1 w sid (pyStrip url) with
              active_streams := alistSet (admitPhase1 w sid (pyStrip url)).active_streams sid
                ⟨none, now, true, none, none, "Initializing...", ⟨pyStrip url, vi, si⟩⟩,
              pending := (admitPhase1 w sid (pyStrip url)).pending
                ++ [⟨sid, pyStrip url, vi, si, 0, 0⟩] }
          sid sid2 hne
        have h3 := alistGet_set_ne (admitPhase1 w sid (pyStrip url)).active_streams sid sid2
          (⟨none, now, true, none, none, "Initializing...", ⟨pyStrip url, vi, si⟩⟩ : SessionData)
          hne
        simp only [Prod.snd]
        rw [h2]
        simpa [h3] using hsg
      · have h4 := setProgressTask_dirs
          { admitPhase1 w sid (pyStrip url) with
              active_streams := alistSet (admitPhase1 w sid (pyStrip url)).active_streams sid
                ⟨none, now, true, none, none, "Initializing...", ⟨pyStrip url, vi, si⟩⟩,
              pending := (admitPhase1 w sid (pyStrip url)).pending
                ++ [⟨sid, pyStrip url, vi, si, 0, 0⟩] }
          sid
        simp only [Prod.snd]
        rw [h4]
        simpa using hdg
  · intro w sid video_url h
    unfold admitPhase1
    rw [findOrphan_eq_none w.active_streams video_url sid h]

/-- A registry holding one stale session for the content `uX`. -/
def orphanWorld : World :=
  ⟨[("old", ⟨none, 1, false, none, none, "stale", ⟨"uX", "0", none⟩⟩)],
   [("old", ⟨none, [], false⟩)], [], []⟩

/-- Witness for C4 at a concrete input: admitting a new session for the
same content removes the stale one and its artifacts. -/
theorem C4_same_content_preemption_witness :
    alistGet (handle_stream_post orphanWorld "new" "uX" "0" none 7).2.active_streams "old"
      = none ∧
    alistGet (handle_stream_post orphanWorld "new" "uX" "0" none 7).2.dirs "old" = none :=
  C4_same_content_preemption.1 orphanWorld "new" "old"
    ⟨none, 1, false, none, none, "stale", ⟨"uX", "0", none⟩⟩ "uX" "0" none 7
    (by decide) (by decide) (by decide) (by unfold NodupKeys; decide)
    (by unfold NodupKeys; decide) (by decide) (by decide) (by decide) (by decide)

/-- A state with no registry record for `x` but a leftover artifact
directory for it (for example after an earlier `Stop` without cleanup). -/
def leftoverDirWorld : World :=
  ⟨[], [("x", ⟨none, [], false⟩)], [], []⟩

/-- C5, counterexample: the claim calls `Stop` on an unknown id a no-op,
but `stop_stream_process` with `cleanup_files=True` on an unknown id still
deletes the leftover artifact directory, so the state changes. -/
theorem C5_stop_unknown_not_noop :
    stop_stream_process leftoverDirWorld "x" true ≠ leftoverDirWorld := by
  decide

/-- C5 (amended): `Stop` is idempotent — a second call with the same
arguments reproduces the same end state and raises nothing — and a call
on an unknown or already-stopped id returns success leaving the registry
and the process table untouched; with `withCleanup = false` such a call is
a complete no-op, while with `withCleanup = true` it still removes any
leftover artifact directory for that id (the one divergence from the
claim as written). -/
theorem C5_stop_idempotent :
    (∀ (w : World) (sid : String) (c : Bool),
        NodupKeys w.active_streams → NodupKeys w.dirs →
        stop_stream_process (stop_stream_process w sid c) sid c
          = stop_stream_process w sid c)
  ∧ (∀ (w : World) (sid : String) (c : Bool),
        alistGet w.active_streams sid = none →
        (stop_stream_process w sid c).active_streams = w.active_streams ∧
        (stop_stream_process w sid c).procs = w.procs ∧
        (stop_stream_process w sid c).pending = w.pending)
  ∧ (∀ (w : World) (sid : String),
        alistGet w.active_streams sid = none → stop_stream_process w sid false = w) := by
  refine ⟨?_, ?_, ?_⟩
  · intro w sid c hs hd
    have hgone : alistGet (stop_stream_process w sid c).active_streams sid = none := by
      rw [stop_streams_eq]
      exact alistGet_remove_self w.active_streams sid hs
    rw [stop_of_get_none _ sid c hgone]
    cases c with
    | false => simp
    | true =>
        have h2 : alistGet (alistRemove w.dirs sid) sid = none :=
          alistGet_remove_self w.dirs sid hd
        simp only [if_true]
        rw [stop_dirs_true, alistRemove_of_get_none _ _ h2, ← stop_dirs_true w sid]
  · intro w sid c h
    rw [stop_of_get_none _ sid c h]
    cases c <;> simp
  · intro w sid h
    rw [stop_of_get_none _ sid false h]
    simp

/-- Witness for the amended C5 at a concrete input. -/
theorem C5_stop_idempotent_witness :
    stop_stream_process (stop_stream_process leftoverDirWorld "x" true) "x" true
      = stop_stream_process leftoverDirWorld "x" true :=
  C5_stop_idempotent.1 leftoverDirWorld "x" true (by unfold NodupKeys; decide)
    (by unfold NodupKeys; decide)

/-- A state with one terminated session whose record still holds a
preserved context. -/
def storedContextWorld : World :=
  ⟨[("s", ⟨none, 1, false, none, none, "stopped", ⟨"u", "0", none⟩⟩)],
   [("s", ⟨some ["#EXTM3U"], ["segment00000.ts"], false⟩)], [], []⟩

/-- C6, counterexample: the claim says `Stop` with `withCleanup = false`
retains the session's record in the registry; on the code the record is
popped unconditionally — after the call the id resolves to nothing even
though it was present before. -/
theorem C6_stop_removes_record_even_without_cleanup :
    alistGet storedContextWorld.active_streams "s"
      = some ⟨none, 1, false, none, none, "stopped", ⟨"u", "0", none⟩⟩ ∧
    alistGet (stop_stream_process storedContextWorld "s" false).active_streams "s" = none := by
  constructor
  · decide
  · decide

/-- C6 (amended): `stop_stream_process` always removes the session's
record from the registry, whatever `cleanup_files` is; what
`cleanup_files = false` retains is the on-disk artifact directory (so only
a restart that captured the context before stopping can resume), and only
`cleanup_files = true` also deletes the session-scoped artifacts. -/
theorem C6_stop_record_and_artifacts :
    ∀ (w : World) (sid : String) (c : Bool), NodupKeys w.active_streams →
      ((stop_stream_process w sid c).active_streams = alistRemove w.active_streams sid ∧
        alistGet (stop_stream_process w sid c).active_streams sid = none) ∧
      (c = false → (stop_stream_process w sid c).dirs = w.dirs) ∧
      (c = true → (stop_stream_process w sid c).dirs = alistRemove w.dirs sid) := by
  intro w sid c hs
  refine ⟨⟨stop_streams_eq w sid c, ?_⟩, ?_, ?_⟩
  · rw [stop_streams_eq]
    exact alistGet_remove_self w.active_streams sid hs
  · intro hc
    subst hc
    exact stop_dirs_false w sid
  · intro hc
    subst hc
    exact stop_dirs_true w sid

/-- Witness for the amended C6 at a concrete input. -/
theorem C6_stop_record_and_artifacts_witness :
    ((stop_stream_process storedContextWorld "s" false).active_streams
        = alistRemove storedContextWorld.active_streams "s" ∧
      alistGet (stop_stream_process storedContextWorld "s" false).active_streams "s" = none) ∧
    (false = false → (stop_stream_process storedContextWorld "s" false).dirs
        = storedContextWorld.dirs) ∧
    (false = true → (stop_stream_process storedContextWorld "s" false).dirs
        = alistRemove storedContextWorld.dirs "s") :=
  C6_stop_record_and_artifacts storedContextWorld "s" false (by unfold NodupKeys; decide)

/-- C7: the locked phase of a reaper sweep distinguishes a missing process
handle from a dead one.  (1) A record whose handle is `None` is left
exactly as it is, whatever its flag says — admission-before-launch is
never read as "process exited".  (2) A record whose handle's process is
still alive is also untouched.  (3) Only a record with a handle whose
process has exited and whose flag is still set is flipped: its flag
becomes false and its `last_seen` is refreshed to the sweep time, and the
flipped record is not collected for the hard-stop phase of the same sweep
(it is treated as not-running from then on). -/
theorem C7_reaper_nil_handle_not_exited :
    (∀ (w : World) (now : Nat) (sid : String) (sd : SessionData),
        alistGet w.active_streams sid = some sd → sd.process = none →
        alistGet (reaperScan w now).1.active_streams sid = some sd)
  ∧ (∀ (w : World) (now : Nat) (sid : String) (sd : SessionData) (pid : Nat),
        alistGet w.active_streams sid = some sd → sd.process = some pid →
        alistGet w.procs pid = some true →
        alistGet (reaperScan w now).1.active_streams sid = some sd)
  ∧ (∀ (w : World) (now : Nat) (sid : String) (sd : SessionData) (pid : Nat),
        NodupKeys w.active_streams →
        alistGet w.active_streams sid = some sd → sd.process = some pid →
        ¬ alistGet w.procs pid = some true → sd.process_running = true →
        alistGet (reaperScan w now).1.active_streams sid
          = some { sd with process_running := false, last_seen := now } ∧
        sid ∉ (reaperScan w now).2) := by
  refine ⟨?_, ?_, ?_⟩
  · intro w now sid sd hg hp
    rw [reaperScan_streams, alistGet_map_snd, hg]
    simp [reaperStepRecord_no_handle w.procs now sd hp]
  · intro w now sid sd pid hg hp ha
    rw [reaperScan_streams, alistGet_map_snd, hg]
    simp [reaperStepRecord_alive w.procs now sd pid hp ha]
  · intro w now sid sd pid hnd hg hp hdead hr
    constructor
    · rw [reaperScan_streams, alistGet_map_snd, hg]
      simp [reaperStepRecord_dead_running w.procs now sd pid hp hdead hr]
    · intro hmem
      rw [reaperScan_kills] at hmem
      rcases List.mem_map.mp hmem with ⟨p, hpf, hpfst⟩
      rcases List.mem_filter.mp hpf with ⟨hpmem, hpred⟩
      rcases List.mem_map.mp hpmem with ⟨q, hqmem, hqeq⟩
      have hq1 : q.1 = sid := by
        rw [← hpfst, ← hqeq]
      have hget2 : alistGet w.active_streams q.1 = some q.2 :=
        alistGet_of_mem_nodup w.active_streams q.1 q.2 hnd (by simpa using hqmem)
      have hq2 : q.2 = sd := by
        rw [hq1, hg] at hget2
        exact (Option.some.inj hget2).symm
      have hflip : reaperStepRecord w.procs now q.2
          = { sd with process_running := false, last_seen := now } := by
        rw [hq2]
        exact reaperStepRecord_dead_running w.procs now sd pid hp hdead hr
      have hp2 : p.2 = reaperStepRecord w.procs now q.2 := by
        rw [← hqeq]
      rw [hp2, hflip] at hpred
      simp at hpred

/-- A registry with one running record whose recorded process has exited. -/
def deadPidWorld : World :=
  ⟨[("r", ⟨some 5, 100, true, none, none, "m", ⟨"u", "0", none⟩⟩)], [], [(5, false)], []⟩

/-- Witness for C7 at a concrete input: the sweep flips the flag,
refreshes the timestamp, and does not hard-stop the session. -/
theorem C7_reaper_nil_handle_not_exited_witness :
    alistGet (reaperScan deadPidWorld 130).1.active_streams "r"
      = some ⟨some 5, 130, false, none, none, "m", ⟨"u", "0", none⟩⟩ ∧
    "r" ∉ (reaperScan deadPidWorld 130).2 :=
  C7_reaper_nil_handle_not_exited.2.2 deadPidWorld 130 "r"
    ⟨some 5, 100, true, none, none, "m", ⟨"u", "0", none⟩⟩ 5
    (by unfold NodupKeys; decide) (by decide) (by decide) (by decide) (by decide)

/-- The admission call of the C8 scenario. -/
def c8Admission : Response × World := handle_stream_post initWorld "s" "u" "0" none 10

/-- The launch task that admission created. -/
def c8Launch : LaunchArgs := ⟨"s", "u", "0", none, 0, 0⟩

/-- The state after that launch task fails (for example `Popen` raising). -/
def c8FailedWorld : World :=
  run_pending_launch c8Admission.2 c8Launch .incompatible (.failure "spawn failed")

/-- C8, counterexample: the immediate caller of the admission received
the success answer `ok` — computed and sent before the launch task ran —
so when the launch later fails nothing is surfaced synchronously to that
caller; the failure only manifests as the record and artifacts vanishing
(the cleanup half of the claim, which does hold). -/
theorem C8_launch_failure_not_synchronous :
    c8Admission.1 = Response.ok ∧
    alistGet c8FailedWorld.active_streams "s" = none ∧
    alistGet c8FailedWorld.dirs "s" = none ∧
    c8FailedWorld.pending = [] := by
  refine ⟨by decide, by decide, by decide, by decide⟩

/-- C8 (amended): a failure in the launch task is handled asynchronously:
for every state and every failing launch, the task's exception handler
fully terminates the session — the record is removed from the registry and
the session's partial artifacts are deleted, never leaving a silently
broken registry entry — but the error is not surfaced synchronously to the
caller of the start or restart operation, which has already received its
success response (see the counterexample). -/
theorem C8_failed_launch_cleanup :
    ∀ (w : World) (a : LaunchArgs) (probe : ProbeOutcome) (msg : String),
      NodupKeys w.active_streams → NodupKeys w.dirs →
      alistGet (process_stream_task w a probe (.failure msg)).active_streams a.session_id
        = none ∧
      alistGet (process_stream_task w a probe (.failure msg)).dirs a.session_id = none := by
  intro w a probe msg hs hd
  show
    alistGet (stop_stream_process
        (update_status (update_status w a.session_id "Analyzing media file with ffprobe...")
          a.session_id ("Error: " ++ msg))
        a.session_id true).active_streams a.session_id = none ∧
    alistGet (stop_stream_process
        (update_status (update_status w a.session_id "Analyzing media file with ffprobe...")
          a.session_id ("Error: " ++ msg))
        a.session_id true).dirs a.session_id = none
  have hnd2 : NodupKeys (update_status
      (update_status w a.session_id "Analyzing media file with ffprobe...")
      a.session_id ("Error: " ++ msg)).active_streams :=
    update_status_streams_nodup _ a.session_id _
      (update_status_streams_nodup w a.session_id _ hs)
  constructor
  · rw [stop_streams_eq]
    exact alistGet_remove_self _ a.session_id hnd2
  · rw [stop_dirs_true, update_status_dirs, update_status_dirs]
    exact alistGet_remove_self w.dirs a.session_id hd

/-- Witness for the amended C8 at a concrete input. -/
theorem C8_failed_launch_cleanup_witness :
    alistGet (process_stream_task storedContextWorld c8Launch .incompatible
        (.failure "boom")).active_streams "s" = none ∧
    alistGet (process_stream_task storedContextWorld c8Launch .incompatible
        (.failure "boom")).dirs "s" = none :=
  C8_failed_launch_cleanup storedContextWorld c8Launch .incompatible "boom"
    (by unfold NodupKeys; decide) (by unfold NodupKeys; decide)

/-- C9: `handle_heartbeat` answers `ok` (HTTP 200) for every id that
passes validation, whether or not it is in the registry — the `ok` return
sits inside the lock block, so the trailing `session_not_found` 404 is
dead code.  A present id gets its `last_seen` refreshed to now; an absent
id leaves the state untouched. -/
theorem C9_heartbeat_always_ok :
    ∀ (w : World) (sid : String) (now : Nat), validate_session_id sid = true →
      ((handle_heartbeat w sid now).1 = Response.ok ∧
        (handle_heartbeat w sid now).1 ≠ Response.sessionNotFound) ∧
      (∀ sd : SessionData, alistGet w.active_streams sid = some sd →
        (handle_heartbeat w sid now).2
          = { w with active_streams :=
                alistSet w.active_streams sid { sd with last_seen := now } }) ∧
      (alistGet w.active_streams sid = none → (handle_heartbeat w sid now).2 = w) := by
  intro w sid now hv
  unfold handle_heartbeat
  simp only [hv]
  cases hg : alistGet w.active_streams sid with
  | none => simp
  | some sd =>
      refine ⟨⟨rfl, by simp⟩, ?_, ?_⟩
      · intro sd2 hsd2
        have h2 : sd = sd2 := Option.some.inj hsd2
        subst h2
        rfl
      · intro h
        cases h

/-- Witness for C9 at a concrete input: a heartbeat for an id unknown to
the registry still answers `ok` and changes nothing. -/
theorem C9_heartbeat_always_ok_witness :
    ((handle_heartbeat storedContextWorld "ghost" 7).1 = Response.ok ∧
      (handle_heartbeat storedContextWorld "ghost" 7).1 ≠ Response.sessionNotFound) ∧
    (handle_heartbeat storedContextWorld "ghost" 7).2 = storedContextWorld :=
  ⟨(C9_heartbeat_always_ok storedContextWorld "ghost" 7 (by decide)).1,
   (C9_heartbeat_always_ok storedContextWorld "ghost" 7 (by decide)).2.2 (by decide)⟩

/-- C10: every session-scoped handler validates the id first: an id that
fails `validate_session_id` (empty, containing a slash, or containing the
substring `..`) is rejected with the 400 answer and the state — registry,
directories, process table, pending tasks — is returned unchanged, so no
registry lookup or mutation and no filesystem access happens for such an
id. -/
theorem C10_session_id_validated_first :
    ∀ (w : World) (sid : String), validate_session_id sid = false →
      (∀ (url vi : String) (si : Option String) (now : Nat),
          handle_stream_post w sid url vi si now = (.badRequest, w)) ∧
      handle_stream_status w sid = (.badRequest, w) ∧
      (∀ hard : Option String, handle_stop_stream w sid hard = (.badRequest, w)) ∧
      (∀ now : Nat, handle_restart_stream w sid now = (.badRequest, w)) ∧
      (∀ now : Nat, handle_heartbeat w sid now = (.badRequest, w)) ∧
      handle_progress w sid = (.badRequest, w) ∧
      handle_is_active w sid = (.badRequest, w) ∧
      handle_subtitle_vtt w sid = (.badRequest, w) := by
  intro w sid h
  refine ⟨?_, ?_, ?_, ?_, ?_, ?_, ?_, ?_⟩
  · intro url vi si now
    exact handle_stream_post_invalid w sid url vi si now h
  · simp [handle_stream_status, h]
  · intro hard
    simp [handle_stop_stream, h]
  · intro now
    simp [handle_restart_stream, h]
  · intro now
    simp [handle_heartbeat, h]
  · simp [handle_progress, h]
  · simp [handle_is_active, h]
  · simp [handle_subtitle_vtt, h]

/-- Witness for C10 at a concrete input: the path-traversal id `..` is
rejected by every handler with the state unchanged. -/
theorem C10_session_id_validated_first_witness :
    handle_stream_post storedContextWorld ".." "u" "0" none 1
        = (Response.badRequest, storedContextWorld) ∧
    handle_restart_stream storedContextWorld ".." 1
        = (Response.badRequest, storedContextWorld) ∧
    handle_subtitle_vtt storedContextWorld ".."
        = (Response.badRequest, storedContextWorld) :=
  ⟨(C10_session_id_validated_first storedContextWorld ".." (by decide)).1 "u" "0" none 1,
   (C10_session_id_validated_first storedContextWorld ".." (by decide)).2.2.2.1 1,
   (C10_session_id_validated_first storedContextWorld ".." (by decide)).2.2.2.2.2.2.2⟩
